import Mathlib

/-!
Verification of the wardreport classification and aggregation engine
(`wardreport/common.py`) against its specification.

The Python functions are shallowly embedded as Lean definitions:

* member / calling / recommend records become structures holding the
  fields the verified properties mention (fields no verified property
  touches are omitted);
* Python dictionaries keyed by an identifier become functions
  `Int → Option _` built by successive updates, which models dict
  assignment (last write wins) and `dict.get` (absence is `none`);
* a fallible Python function (one that can raise) becomes a function
  into `Except Err _`, with one `Err` constructor per distinct Python
  exception the embedded code can raise.
-/

namespace WardReport

/-- The exceptions the embedded fragment of `common.py` can raise.
`unclassifiedItem` models the `ValueError('Item did not match any
predicates!')` raised at common.py line 75 (the specification's
`UnclassifiedItemError`); `keyError` models a Python `KeyError` from a
missing dict key; `valueErrorUnpack` models the `ValueError` Python
raises when tuple unpacking meets the wrong arity;
`zeroDivisionError` models Python's `ZeroDivisionError`. -/
inductive Err where
  | unclassifiedItem : Err
  | keyError : Err
  | valueErrorUnpack : Err
  | zeroDivisionError : Err
deriving DecidableEq, Repr

/-- Embeds `partition` (common.py lines 43-53):
`return list(filter(pred, t2)), list(filterfalse(pred, t1))`.
The two `tee` copies of the iterable are both the input list, so the
result is the items passing the predicate followed (in the pair) by the
items failing it, each in input order. -/
def partition {α : Type} (pred : α → Bool) (items : List α) : List α × List α :=
  (items.filter pred, items.filter fun x => !(pred x))

/-- The index of the first predicate (in list order) an item satisfies,
if any: the inner loop of `multi_partition` (common.py lines 69-73)
keeps a `match` flag so only the first satisfied predicate receives the
item. -/
def firstMatch {α : Type} : List (α → Bool) → α → Option Nat
  | [], _ => none
  | p :: ps, x => if p x then some 0 else (firstMatch ps x).map (· + 1)

/-- `partitions[idx].append(member)`: add an element to the bucket at a
given index, leaving the other buckets unchanged.  (The embedding conses
the element processed first onto the bucket built from the rest of the
input, which keeps input order inside each bucket, exactly as repeated
`append` does.) -/
def consAt {α : Type} (j : Nat) (x : α) : List (List α) → List (List α)
  | [] => []
  | b :: bs =>
    match j with
    | 0 => (x :: b) :: bs
    | Nat.succ j2 => b :: consAt j2 x bs

/-- Embeds `multi_partition` (common.py lines 62-77): one empty bucket
per predicate; each item goes to the bucket of the first predicate it
satisfies; an item satisfying none raises
`ValueError('Item did not match any predicates!')`, so no partial
result is ever returned. -/
def multi_partition {α : Type} (predicates : List (α → Bool)) : List α → Except Err (List (List α))
  | [] => Except.ok (predicates.map fun _ => [])
  | x :: xs =>
    match firstMatch predicates x with
    | none => Except.error Err.unclassifiedItem
    | some j => (multi_partition predicates xs).map (consAt j x)

theorem firstMatch_eq_none_iff {α : Type} (preds : List (α → Bool)) (x : α) :
    firstMatch preds x = none ↔ ∀ p ∈ preds, p x = false := by
  induction preds with
  | nil => simp [firstMatch]
  | cons p ps ih =>
    by_cases hp : p x
    · simp [firstMatch, hp]
    · simp only [Bool.not_eq_true] at hp
      simp [firstMatch, hp, ih]

theorem firstMatch_isSome_iff {α : Type} (preds : List (α → Bool)) (x : α) :
    (firstMatch preds x).isSome = true ↔ ∃ p ∈ preds, p x = true := by
  rw [Option.isSome_iff_ne_none, Ne, firstMatch_eq_none_iff]
  push_neg
  simp

theorem firstMatch_cons_eq_zero {α : Type} (p : α → Bool) (ps : List (α → Bool)) (x : α) :
    firstMatch (p :: ps) x = some 0 ↔ p x = true := by
  by_cases hp : p x
  · simp [firstMatch, hp]
  · simp only [Bool.not_eq_true] at hp
    simp [firstMatch, hp]

theorem firstMatch_cons_eq_succ {α : Type} (p : α → Bool) (ps : List (α → Bool)) (x : α)
    (j : Nat) :
    firstMatch (p :: ps) x = some (j + 1) ↔ p x = false ∧ firstMatch ps x = some j := by
  by_cases hp : p x
  · simp [firstMatch, hp]
  · simp only [Bool.not_eq_true] at hp
    simp [firstMatch, hp]

theorem firstMatch_lt_length {α : Type} {preds : List (α → Bool)} {x : α} {j : Nat}
    (h : firstMatch preds x = some j) : j < preds.length := by
  induction preds generalizing j with
  | nil => simp [firstMatch] at h
  | cons p ps ih =>
    by_cases hp : p x
    · simp [firstMatch, hp] at h
      simp only [List.length_cons]
      omega
    · simp only [Bool.not_eq_true] at hp
      simp [firstMatch, hp] at h
      obtain ⟨j2, hj2, rfl⟩ := h
      have := ih hj2
      simp only [List.length_cons]
      omega

theorem firstMatch_get_true {α : Type} {preds : List (α → Bool)} {x : α} {j : Nat}
    (h : firstMatch preds x = some j) (hj : j < preds.length) :
    (preds.get ⟨j, hj⟩) x = true := by
  induction preds generalizing j with
  | nil => simp [firstMatch] at h
  | cons p ps ih =>
    by_cases hp : p x
    · simp [firstMatch, hp] at h
      subst h
      simpa using hp
    · simp only [Bool.not_eq_true] at hp
      simp [firstMatch, hp] at h
      obtain ⟨j2, hj2, rfl⟩ := h
      simpa using ih hj2 (by simpa using Nat.lt_of_succ_lt_succ (by simpa using hj))

theorem firstMatch_earlier_false {α : Type} {preds : List (α → Bool)} {x : α} {j : Nat}
    (h : firstMatch preds x = some j) (i : Nat) (hij : i < j) (hi : i < preds.length) :
    (preds.get ⟨i, hi⟩) x = false := by
  induction preds generalizing i j with
  | nil => simp [firstMatch] at h
  | cons p ps ih =>
    by_cases hp : p x
    · simp [firstMatch, hp] at h
      omega
    · simp only [Bool.not_eq_true] at hp
      simp [firstMatch, hp] at h
      obtain ⟨j2, hj2, rfl⟩ := h
      match i with
      | 0 => simpa using hp
      | Nat.succ i2 =>
        have hi2 : i2 < ps.length := by simpa using Nat.lt_of_succ_lt_succ (by simpa using hi)
        simpa using ih hj2 i2 (by omega) hi2

theorem consAt_length {α : Type} (j : Nat) (x : α) (parts : List (List α)) :
    (consAt j x parts).length = parts.length := by
  induction parts generalizing j with
  | nil => simp [consAt]
  | cons b bs ih =>
    match j with
    | 0 => simp [consAt]
    | Nat.succ j2 => simp [consAt, ih]

theorem consAt_get {α : Type} (j0 : Nat) (x : α) (parts : List (List α))
    (j : Nat) (hj : j < parts.length) :
    (consAt j0 x parts).get ⟨j, by rw [consAt_length]; exact hj⟩ =
      if j = j0 then x :: parts.get ⟨j, hj⟩ else parts.get ⟨j, hj⟩ := by
  induction parts generalizing j j0 with
  | nil => simp at hj
  | cons b bs ih =>
    match j0, j with
    | 0, 0 => simp [consAt]
    | 0, Nat.succ j2 => simp [consAt]
    | Nat.succ j02, 0 => simp [consAt]
    | Nat.succ j02, Nat.succ j2 =>
      have hj2 : j2 < bs.length := by simpa using Nat.lt_of_succ_lt_succ (by simpa using hj)
      simpa [consAt, Nat.succ_inj] using ih j02 j2 hj2

theorem consAt_sum_lengths {α : Type} (j : Nat) (x : α) (parts : List (List α))
    (hj : j < parts.length) :
    ((consAt j x parts).map List.length).sum = (parts.map List.length).sum + 1 := by
  induction parts generalizing j with
  | nil => simp at hj
  | cons b bs ih =>
    match j with
    | 0 => simp [consAt]; omega
    | Nat.succ j2 =>
      have hj2 : j2 < bs.length := by simpa using Nat.lt_of_succ_lt_succ (by simpa using hj)
      simp [consAt, ih j2 hj2]
      omega

/-- Inverting one step of `multi_partition` on a cons cell. -/
theorem multi_partition_cons_ok {α : Type} {preds : List (α → Bool)} {y : α} {ys : List α}
    {parts : List (List α)}
    (h : multi_partition preds (y :: ys) = Except.ok parts) :
    ∃ j parts2, firstMatch preds y = some j ∧
      multi_partition preds ys = Except.ok parts2 ∧ parts = consAt j y parts2 := by
  rw [multi_partition] at h
  cases hfm : firstMatch preds y with
  | none => rw [hfm] at h; exact absurd h (by simp)
  | some j =>
    rw [hfm] at h
    cases hmp : multi_partition preds ys with
    | error e => rw [hmp] at h; exact absurd h (by simp [Except.map])
    | ok parts2 =>
      rw [hmp] at h
      simp [Except.map] at h
      exact ⟨j, parts2, rfl, rfl, h.symm⟩

theorem multi_partition_length {α : Type} {preds : List (α → Bool)} {items : List α}
    {parts : List (List α)}
    (h : multi_partition preds items = Except.ok parts) : parts.length = preds.length := by
  induction items generalizing parts with
  | nil =>
    rw [multi_partition] at h
    simp at h
    simp [← h]
  | cons y ys ih =>
    obtain ⟨j, parts2, _, hmp, rfl⟩ := multi_partition_cons_ok h
    rw [consAt_length]
    exact ih hmp

theorem multi_partition_sum {α : Type} {preds : List (α → Bool)} {items : List α}
    {parts : List (List α)}
    (h : multi_partition preds items = Except.ok parts) :
    (parts.map List.length).sum = items.length := by
  induction items generalizing parts with
  | nil =>
    rw [multi_partition] at h
    simp at h
    subst h
    simp
  | cons y ys ih =>
    obtain ⟨j, parts2, hfm, hmp, rfl⟩ := multi_partition_cons_ok h
    have hj : j < parts2.length := by
      rw [multi_partition_length hmp]
      exact firstMatch_lt_length hfm
    rw [consAt_sum_lengths j y parts2 hj, ih hmp]
    simp

/-- Each bucket of a successful `multi_partition` holds exactly the input
items (in input order) whose first satisfied predicate is that bucket's. -/
theorem multi_partition_get {α : Type} {preds : List (α → Bool)} {items : List α}
    {parts : List (List α)}
    (h : multi_partition preds items = Except.ok parts)
    (j : Nat) (hj : j < parts.length) :
    parts.get ⟨j, hj⟩ = items.filter fun x => decide (firstMatch preds x = some j) := by
  induction items generalizing parts with
  | nil =>
    rw [multi_partition] at h
    simp at h
    subst h
    simp
  | cons y ys ih =>
    obtain ⟨j0, parts2, hfm, hmp, rfl⟩ := multi_partition_cons_ok h
    have hj2 : j < parts2.length := by rwa [consAt_length] at hj
    rw [consAt_get j0 y parts2 j hj2, ih hmp hj2]
    by_cases hjj : j = j0
    · subst hjj
      simp [List.filter_cons, hfm]
    · have : ¬(firstMatch preds y = some j) := by
        rw [hfm]
        simp
        omega
      simp [List.filter_cons, this, hjj]

theorem multi_partition_error_of_unmatched {α : Type} {preds : List (α → Bool)}
    {items : List α} (h : ∃ x ∈ items, firstMatch preds x = none) :
    multi_partition preds items = Except.error Err.unclassifiedItem := by
  induction items with
  | nil => simp at h
  | cons y ys ih =>
    obtain ⟨x, hx, hfm⟩ := h
    rcases List.mem_cons.mp hx with rfl | hx2
    · rw [multi_partition, hfm]
    · rw [multi_partition]
      cases hfmy : firstMatch preds y with
      | none => rfl
      | some j => rw [ih ⟨x, hx2, hfm⟩]; rfl

theorem multi_partition_ok_of_matched {α : Type} {preds : List (α → Bool)}
    {items : List α} (h : ∀ x ∈ items, (firstMatch preds x).isSome = true) :
    ∃ parts, multi_partition preds items = Except.ok parts := by
  induction items with
  | nil => exact ⟨_, by rw [multi_partition]⟩
  | cons y ys ih =>
    obtain ⟨j, hfm⟩ := Option.isSome_iff_exists.mp (h y (by simp))
    obtain ⟨parts2, hmp⟩ := ih fun x hx => h x (by simp [hx])
    exact ⟨consAt j y parts2, by rw [multi_partition, hfm, hmp]; rfl⟩

theorem multi_partition_error_iff {α : Type} (preds : List (α → Bool)) (items : List α) :
    multi_partition preds items = Except.error Err.unclassifiedItem ↔
      ∃ x ∈ items, ∀ p ∈ preds, p x = false := by
  constructor
  · intro h
    by_contra hc
    push_neg at hc
    have hall : ∀ x ∈ items, (firstMatch preds x).isSome = true := by
      intro x hx
      rw [firstMatch_isSome_iff]
      obtain ⟨p, hp, hpx⟩ := hc x hx
      exact ⟨p, hp, by simpa using hpx⟩
    obtain ⟨parts, hparts⟩ := multi_partition_ok_of_matched hall
    rw [hparts] at h
    exact absurd h (by simp)
  · intro ⟨x, hx, hxfalse⟩
    exact multi_partition_error_of_unmatched
      ⟨x, hx, (firstMatch_eq_none_iff preds x).mpr hxfalse⟩

/-- C1: for every predicate list and item sequence, `multi_partition`
fails the whole call with the unclassified-item error (common.py line
75; the spec's `UnclassifiedItemError`) exactly when some item satisfies
none of the predicates — no partial result exists in that case, the
call's value being `Except.error` — and when every item satisfies at
least one predicate it never raises, returning a result. -/
theorem multi_partition_fail_fast {α : Type} (preds : List (α → Bool)) (items : List α) :
    (multi_partition preds items = Except.error Err.unclassifiedItem ↔
      ∃ x ∈ items, ∀ p ∈ preds, p x = false) ∧
    ((∀ x ∈ items, ∃ p ∈ preds, p x = true) →
      ∃ parts, multi_partition preds items = Except.ok parts) := by
  refine ⟨multi_partition_error_iff preds items, fun h => multi_partition_ok_of_matched ?_⟩
  intro x hx
  rw [firstMatch_isSome_iff]
  exact h x hx

/-- C2: when every item satisfies at least one predicate,
`multi_partition` returns one bucket per predicate; the bucket sizes sum
to the input length; an item is in bucket `j` exactly when `j` is the
index of the first predicate it satisfies (so an item satisfying several
predicates lands only in the earliest matching bucket and is never
duplicated, and each bucket holds only items satisfying its predicate);
and every item is in exactly one bucket. -/
theorem multi_partition_first_match_buckets {α : Type} (preds : List (α → Bool))
    (items : List α) (h : ∀ x ∈ items, ∃ p ∈ preds, p x = true) :
    ∃ parts, multi_partition preds items = Except.ok parts ∧
      parts.length = preds.length ∧
      (parts.map List.length).sum = items.length ∧
      (∀ (j : Nat) (hj : j < parts.length) (x : α),
        x ∈ parts.get ⟨j, hj⟩ ↔ (x ∈ items ∧ firstMatch preds x = some j)) ∧
      (∀ (j : Nat) (hj : j < parts.length) (x : α), x ∈ parts.get ⟨j, hj⟩ →
        ∃ hp : j < preds.length, (preds.get ⟨j, hp⟩) x = true ∧
          ∀ (i : Nat) (hi : i < j), (preds.get ⟨i, Nat.lt_trans hi hp⟩) x = false) ∧
      (∀ x ∈ items, ∃ j, (∃ hj : j < parts.length, x ∈ parts.get ⟨j, hj⟩) ∧
        ∀ j2, (∃ hj2 : j2 < parts.length, x ∈ parts.get ⟨j2, hj2⟩) → j2 = j) := by
  have hall : ∀ x ∈ items, (firstMatch preds x).isSome = true := by
    intro x hx
    rw [firstMatch_isSome_iff]
    exact h x hx
  obtain ⟨parts, hmp⟩ := multi_partition_ok_of_matched hall
  have hmem : ∀ (j : Nat) (hj : j < parts.length) (x : α),
      x ∈ parts.get ⟨j, hj⟩ ↔ (x ∈ items ∧ firstMatch preds x = some j) := by
    intro j hj x
    rw [multi_partition_get hmp j hj]
    simp [List.mem_filter]
  refine ⟨parts, hmp, multi_partition_length hmp, multi_partition_sum hmp, hmem, ?_, ?_⟩
  · intro j hj x hx
    obtain ⟨-, hfm⟩ := (hmem j hj x).mp hx
    have hp : j < preds.length := firstMatch_lt_length hfm
    exact ⟨hp, firstMatch_get_true hfm hp,
      fun i hi => firstMatch_earlier_false hfm i hi (Nat.lt_trans hi hp)⟩
  · intro x hx
    obtain ⟨j, hfm⟩ := Option.isSome_iff_exists.mp (hall x hx)
    have hj : j < parts.length := by
      rw [multi_partition_length hmp]
      exact firstMatch_lt_length hfm
    refine ⟨j, ⟨hj, (hmem j hj x).mpr ⟨hx, hfm⟩⟩, ?_⟩
    intro j2 ⟨hj2, hx2⟩
    have := ((hmem j2 hj2 x).mp hx2).2
    rw [hfm] at this
    exact (Option.some_inj.mp this).symm

/-- Closed witness for C2 at a concrete input: two overlapping
predicates over the integers and a three-item list, every item matching
at least one predicate. -/
theorem multi_partition_first_match_buckets_witness :
    ∃ parts,
      multi_partition [fun n : Int => decide (n < 10), fun n : Int => decide (0 ≤ n)]
        [5, -3, 12] = Except.ok parts ∧
      parts.length =
        [fun n : Int => decide (n < 10), fun n : Int => decide (0 ≤ n)].length ∧
      (parts.map List.length).sum = [(5 : Int), -3, 12].length ∧
      (∀ (j : Nat) (hj : j < parts.length) (x : Int),
        x ∈ parts.get ⟨j, hj⟩ ↔ (x ∈ [(5 : Int), -3, 12] ∧
          firstMatch [fun n : Int => decide (n < 10), fun n : Int => decide (0 ≤ n)] x =
            some j)) ∧
      (∀ (j : Nat) (hj : j < parts.length) (x : Int), x ∈ parts.get ⟨j, hj⟩ →
        ∃ hp : j < [fun n : Int => decide (n < 10), fun n : Int => decide (0 ≤ n)].length,
          ([fun n : Int => decide (n < 10), fun n : Int => decide (0 ≤ n)].get ⟨j, hp⟩) x =
            true ∧
          ∀ (i : Nat) (hi : i < j),
            ([fun n : Int => decide (n < 10), fun n : Int => decide (0 ≤ n)].get
              ⟨i, Nat.lt_trans hi hp⟩) x = false) ∧
      (∀ x ∈ [(5 : Int), -3, 12], ∃ j, (∃ hj : j < parts.length, x ∈ parts.get ⟨j, hj⟩) ∧
        ∀ j2, (∃ hj2 : j2 < parts.length, x ∈ parts.get ⟨j2, hj2⟩) → j2 = j) :=
  multi_partition_first_match_buckets
    [fun n : Int => decide (n < 10), fun n : Int => decide (0 ≤ n)]
    [5, -3, 12] (by decide)

/-- C3: `partition` on the empty list yields two empty lists; each
output is a sublist of the input (so each preserves the input's relative
order — stability); the concatenation of the two outputs is a
permutation (multiset-equal rearrangement) of the input; every input
item lands in exactly one of the two outputs; and every output item
comes from the input.  Non-mutation of the input holds by construction:
the embedding is a pure function of the input list, as is the Python
original, which only reads the two `tee` iterators. -/
theorem partition_binary_spec {α : Type} (pred : α → Bool) (items : List α) :
    partition pred ([] : List α) = ([], []) ∧
    (partition pred items).1.Sublist items ∧
    (partition pred items).2.Sublist items ∧
    ((partition pred items).1 ++ (partition pred items).2).Perm items ∧
    (∀ x ∈ items,
      (x ∈ (partition pred items).1 ∧ x ∉ (partition pred items).2) ∨
      (x ∈ (partition pred items).2 ∧ x ∉ (partition pred items).1)) ∧
    (∀ x, (x ∈ (partition pred items).1 ∨ x ∈ (partition pred items).2) → x ∈ items) := by
  refine ⟨rfl, List.filter_sublist items, List.filter_sublist items,
    List.filter_append_perm pred items, ?_, ?_⟩
  · intro x hx
    by_cases hp : pred x
    · left
      simp [partition, List.mem_filter, hx, hp]
    · simp only [Bool.not_eq_true] at hp
      right
      simp [partition, List.mem_filter, hx, hp]
  · intro x hx
    rcases hx with hx | hx
    · exact (List.mem_filter.mp hx).1
    · exact (List.mem_filter.mp hx).1

/-- A member record (one person of the roster).  Only the fields the
verified properties touch are modelled.  `priesthoodOffice` is doubly
optional, mirroring Python dict access: the outer `Option` is whether
the `priesthoodOffice` key is present at all (subscripting a missing key
raises `KeyError`), the inner `Option` is a present key holding JSON
null (`None`) versus a string. The remaining fields are accessed by
the embedded code with plain subscripts on records that always carry
them, so they are modelled as always present. -/
structure Member where
  legacyCmisId : Int
  age : Int
  isSingleAdult : Bool
  isYoungSingleAdult : Bool
  priesthoodOffice : Option (Option String)
deriving DecidableEq, Repr

/-- `PRIESTHOODS` (common.py line 173): the fixed key set of the
priesthood grouping dict. -/
def PRIESTHOODS : List String :=
  ["HIGH_PRIEST", "ELDER", "PRIEST", "TEACHER", "DEACON", "UNORDAINED"]

/-- The key under which `priesthood_grouper` (common.py lines 176-188)
files a present `priesthoodOffice` value: `priesthood_office in groups`
keeps a recognized string as its own key, and everything else — JSON
null or an unrecognized string — falls to the `else` branch,
`groups['UNORDAINED']`. -/
def office_key (v : Option String) : String :=
  match v with
  | some s => if s ∈ PRIESTHOODS then s else "UNORDAINED"
  | none => "UNORDAINED"

/-- The six buckets of `priesthood_grouper`, one field per key of the
`groups` dict it builds from `PRIESTHOODS`. -/
structure PriesthoodGroups where
  high_priest : List Member
  elder : List Member
  priest : List Member
  teacher : List Member
  deacon : List Member
  unordained : List Member
deriving DecidableEq, Repr

def emptyPriesthoodGroups : PriesthoodGroups := ⟨[], [], [], [], [], []⟩

/-- `groups[key].append(member)` for the priesthood grouping. -/
def addOffice (g : PriesthoodGroups) (key : String) (m : Member) : PriesthoodGroups :=
  if key = "HIGH_PRIEST" then { g with high_priest := g.high_priest ++ [m] }
  else if key = "ELDER" then { g with elder := g.elder ++ [m] }
  else if key = "PRIEST" then { g with priest := g.priest ++ [m] }
  else if key = "TEACHER" then { g with teacher := g.teacher ++ [m] }
  else if key = "DEACON" then { g with deacon := g.deacon ++ [m] }
  else { g with unordained := g.unordained ++ [m] }

/-- The loop of `priesthood_grouper` (common.py lines 181-186):
`member['priesthoodOffice']` raises `KeyError` when the key is absent;
otherwise the member is appended to the bucket `office_key` selects. -/
def priesthood_grouper_loop (g : PriesthoodGroups) : List Member → Except Err PriesthoodGroups
  | [] => Except.ok g
  | m :: ms =>
    match m.priesthoodOffice with
    | none => Except.error Err.keyError
    | some v => priesthood_grouper_loop (addOffice g (office_key v) m) ms

/-- Embeds `priesthood_grouper` (common.py lines 176-188). -/
def priesthood_grouper (members : List Member) : Except Err PriesthoodGroups :=
  priesthood_grouper_loop emptyPriesthoodGroups members

/-- The bucket key of a member whose record reached `office_key`; for a
record without the key (which the code never files, raising instead)
this defaults to the catch-all value, a case the lemmas below exclude by
hypothesis. -/
def member_office_key (m : Member) : String :=
  match m.priesthoodOffice with
  | some v => office_key v
  | none => "UNORDAINED"

theorem office_key_mem (v : Option String) : office_key v ∈ PRIESTHOODS := by
  match v with
  | none => simp [office_key, PRIESTHOODS]
  | some s =>
    rw [office_key]
    by_cases hs : s ∈ PRIESTHOODS
    · rw [if_pos hs]; exact hs
    · rw [if_neg hs]; simp [PRIESTHOODS]

theorem priesthood_grouper_loop_cons (g : PriesthoodGroups) (m : Member) (ms : List Member)
    {v : Option String} (hv : m.priesthoodOffice = some v) :
    priesthood_grouper_loop g (m :: ms) =
      priesthood_grouper_loop (addOffice g (office_key v) m) ms := by
  rw [priesthood_grouper_loop, hv]

theorem member_office_key_mem (m : Member) : member_office_key m ∈ PRIESTHOODS := by
  match hv : m.priesthoodOffice with
  | some v => simp [member_office_key, hv, office_key_mem]
  | none => simp [member_office_key, hv, PRIESTHOODS]

theorem priesthood_grouper_loop_eq (members : List Member) :
    ∀ g : PriesthoodGroups, (∀ m ∈ members, m.priesthoodOffice.isSome = true) →
      priesthood_grouper_loop g members = Except.ok
        ⟨g.high_priest ++ members.filter fun m => decide (member_office_key m = "HIGH_PRIEST"),
         g.elder ++ members.filter fun m => decide (member_office_key m = "ELDER"),
         g.priest ++ members.filter fun m => decide (member_office_key m = "PRIEST"),
         g.teacher ++ members.filter fun m => decide (member_office_key m = "TEACHER"),
         g.deacon ++ members.filter fun m => decide (member_office_key m = "DEACON"),
         g.unordained ++ members.filter fun m => decide (member_office_key m = "UNORDAINED")⟩ := by
  induction members with
  | nil => intro g h; simp [priesthood_grouper_loop]
  | cons m ms ih =>
    intro g h
    obtain ⟨v, hv⟩ := Option.isSome_iff_exists.mp (h m (by simp))
    have hms : ∀ m2 ∈ ms, m2.priesthoodOffice.isSome = true :=
      fun m2 hm2 => h m2 (by simp [hm2])
    rw [priesthood_grouper_loop_cons g m ms hv]
    rw [ih (addOffice g (office_key v) m) hms]
    have hmo : member_office_key m = office_key v := by simp [member_office_key, hv]
    have hk := office_key_mem v
    simp only [PRIESTHOODS, List.mem_cons, List.not_mem_nil, or_false] at hk
    rcases hk with hk | hk | hk | hk | hk | hk <;>
      simp [addOffice, hk, hmo, List.filter_cons, List.append_assoc]

/-- The six bucket key filters split any member list exhaustively. -/
theorem member_office_key_filter_sum (members : List Member) :
    (members.filter fun m => decide (member_office_key m = "HIGH_PRIEST")).length +
    (members.filter fun m => decide (member_office_key m = "ELDER")).length +
    (members.filter fun m => decide (member_office_key m = "PRIEST")).length +
    (members.filter fun m => decide (member_office_key m = "TEACHER")).length +
    (members.filter fun m => decide (member_office_key m = "DEACON")).length +
    (members.filter fun m => decide (member_office_key m = "UNORDAINED")).length =
      members.length := by
  induction members with
  | nil => simp
  | cons m ms ih =>
    have hk := member_office_key_mem m
    simp only [PRIESTHOODS, List.mem_cons, List.not_mem_nil, or_false] at hk
    rcases hk with hk | hk | hk | hk | hk | hk <;>
      · simp [List.filter_cons, hk]
        omega

/-- C4 counterexample: a member record from which the
`priesthoodOffice` key is absent altogether makes `priesthood_grouper`
raise (`member['priesthoodOffice']`, common.py line 182, is a bare
subscript, which raises `KeyError` on a missing key), refuting
"whatever the value ... or the field being absent altogether ... it
never raises". -/
theorem priesthood_grouper_raises_on_absent_field :
    priesthood_grouper [⟨1, 40, false, false, none⟩] = Except.error Err.keyError := rfl

/-- C4 (amended): priesthood grouping is total over members whose
record carries the `priesthoodOffice` key (with any value: JSON null or
an arbitrary string): it never raises, each bucket is exactly the
members whose bucket key is that bucket's, the six bucket sizes sum to
the input length (each member lands in exactly one bucket), and every
value outside the closed six-key set — null included — folds into
`UNORDAINED`.  A record lacking the key altogether instead raises
`KeyError` (see the counterexample). -/
theorem priesthood_grouper_total_when_field_present (members : List Member)
    (h : ∀ m ∈ members, m.priesthoodOffice.isSome = true) :
    ∃ g, priesthood_grouper members = Except.ok g ∧
      g.high_priest = (members.filter fun m => decide (member_office_key m = "HIGH_PRIEST")) ∧
      g.elder = (members.filter fun m => decide (member_office_key m = "ELDER")) ∧
      g.priest = (members.filter fun m => decide (member_office_key m = "PRIEST")) ∧
      g.teacher = (members.filter fun m => decide (member_office_key m = "TEACHER")) ∧
      g.deacon = (members.filter fun m => decide (member_office_key m = "DEACON")) ∧
      g.unordained = (members.filter fun m => decide (member_office_key m = "UNORDAINED")) ∧
      g.high_priest.length + g.elder.length + g.priest.length + g.teacher.length +
        g.deacon.length + g.unordained.length = members.length ∧
      (∀ m ∈ members, member_office_key m ∈ PRIESTHOODS) ∧
      (∀ s : String, s ∉ PRIESTHOODS → office_key (some s) = "UNORDAINED") ∧
      office_key none = "UNORDAINED" := by
  refine ⟨⟨members.filter fun m => decide (member_office_key m = "HIGH_PRIEST"),
    members.filter fun m => decide (member_office_key m = "ELDER"),
    members.filter fun m => decide (member_office_key m = "PRIEST"),
    members.filter fun m => decide (member_office_key m = "TEACHER"),
    members.filter fun m => decide (member_office_key m = "DEACON"),
    members.filter fun m => decide (member_office_key m = "UNORDAINED")⟩,
    ?_, rfl, rfl, rfl, rfl, rfl, rfl, member_office_key_filter_sum members,
    fun m _ => member_office_key_mem m, ?_, rfl⟩
  · rw [priesthood_grouper, priesthood_grouper_loop_eq members emptyPriesthoodGroups h]
    simp [emptyPriesthoodGroups]
  · intro s hs
    simp [office_key, hs]

/-- The C4 witness sample: a recognized office, a present-but-null
office, and an unrecognized office string. -/
def c4_sample : List Member :=
  [⟨1, 40, false, false, some (some ("ELDER"))⟩,
   ⟨2, 50, false, false, some none⟩,
   ⟨3, 60, false, false, some (some ("BISHOP"))⟩]

/-- Closed witness for C4 (amended) at the concrete three-member list
`c4_sample`. -/
theorem priesthood_grouper_total_when_field_present_witness :
    ∃ g, priesthood_grouper c4_sample = Except.ok g ∧
      g.high_priest = (c4_sample.filter fun m => decide (member_office_key m = "HIGH_PRIEST")) ∧
      g.elder = (c4_sample.filter fun m => decide (member_office_key m = "ELDER")) ∧
      g.priest = (c4_sample.filter fun m => decide (member_office_key m = "PRIEST")) ∧
      g.teacher = (c4_sample.filter fun m => decide (member_office_key m = "TEACHER")) ∧
      g.deacon = (c4_sample.filter fun m => decide (member_office_key m = "DEACON")) ∧
      g.unordained = (c4_sample.filter fun m => decide (member_office_key m = "UNORDAINED")) ∧
      g.high_priest.length + g.elder.length + g.priest.length + g.teacher.length +
        g.deacon.length + g.unordained.length = c4_sample.length ∧
      (∀ m ∈ c4_sample, member_office_key m ∈ PRIESTHOODS) ∧
      (∀ s : String, s ∉ PRIESTHOODS → office_key (some s) = "UNORDAINED") ∧
      office_key none = "UNORDAINED" :=
  priesthood_grouper_total_when_field_present c4_sample (by decide)

/-- A temple-recommend status record.  `recommendStatus` is the value
`status.get('recommendStatus')` reads: `none` models both an absent key
and a JSON null (Python's `.get` returns `None` for both), `some s` a
present string, which Python treats as falsy exactly when it is empty.
`endowmentDate` is carried for fidelity to the record shape; no
verified property reads it. -/
structure RecommendRecord where
  id : Int
  recommendStatus : Option String
  endowmentDate : Option String
deriving DecidableEq, Repr

/-- `STATUSES` (common.py lines 150-159): the fixed key set of the
recommend grouping dict. -/
def STATUSES : List String :=
  ["ACTIVE", "CANCELED", "EXPIRED_LESS_THAN_1_MONTH", "EXPIRED_LESS_THAN_3_MONTHS",
   "EXPIRED_OVER_3_MONTHS", "EXPIRING_NEXT_MONTH", "EXPIRING_THIS_MONTH", "LOST_OR_STOLEN"]

/-- The eight buckets of `recommend_status_grouper`, one field per key
of the `groups` dict it builds from `STATUSES`. -/
structure RecommendGroups where
  active : List RecommendRecord
  canceled : List RecommendRecord
  expired_less_than_1_month : List RecommendRecord
  expired_less_than_3_months : List RecommendRecord
  expired_over_3_months : List RecommendRecord
  expiring_next_month : List RecommendRecord
  expiring_this_month : List RecommendRecord
  lost_or_stolen : List RecommendRecord
deriving DecidableEq, Repr

def emptyRecommendGroups : RecommendGroups := ⟨[], [], [], [], [], [], [], []⟩

/-- `groups[status].append(record)` for the recommend grouping, defined
for the eight keys of `STATUSES` (any other key raises before this is
reached). -/
def addStatus (g : RecommendGroups) (s : String) (r : RecommendRecord) : RecommendGroups :=
  if s = "ACTIVE" then { g with active := g.active ++ [r] }
  else if s = "CANCELED" then { g with canceled := g.canceled ++ [r] }
  else if s = "EXPIRED_LESS_THAN_1_MONTH" then
    { g with expired_less_than_1_month := g.expired_less_than_1_month ++ [r] }
  else if s = "EXPIRED_LESS_THAN_3_MONTHS" then
    { g with expired_less_than_3_months := g.expired_less_than_3_months ++ [r] }
  else if s = "EXPIRED_OVER_3_MONTHS" then
    { g with expired_over_3_months := g.expired_over_3_months ++ [r] }
  else if s = "EXPIRING_NEXT_MONTH" then
    { g with expiring_next_month := g.expiring_next_month ++ [r] }
  else if s = "EXPIRING_THIS_MONTH" then
    { g with expiring_this_month := g.expiring_this_month ++ [r] }
  else { g with lost_or_stolen := g.lost_or_stolen ++ [r] }

/-- The status string the walrus test of common.py line 168 acts on:
`none` when `status.get('recommendStatus')` is falsy (key absent, JSON
null, or the empty string), otherwise the non-empty string itself. -/
def status_key (r : RecommendRecord) : Option String :=
  match r.recommendStatus with
  | none => none
  | some s => if s = "" then none else some s

/-- The loop of `recommend_status_grouper` (common.py lines 167-169): a
falsy status is skipped; a truthy one indexes `groups` directly
(`groups[recommend_status]`), so an unrecognized non-empty status
raises `KeyError`. -/
def recommend_status_grouper_loop (g : RecommendGroups) :
    List RecommendRecord → Except Err RecommendGroups
  | [] => Except.ok g
  | r :: rs =>
    match status_key r with
    | none => recommend_status_grouper_loop g rs
    | some s =>
      if s ∈ STATUSES then recommend_status_grouper_loop (addStatus g s r) rs
      else Except.error Err.keyError

/-- Embeds `recommend_status_grouper` (common.py lines 162-170). -/
def recommend_status_grouper (rs : List RecommendRecord) : Except Err RecommendGroups :=
  recommend_status_grouper_loop emptyRecommendGroups rs

/-- `current_recommend` (common.py lines 275-277): the sum of the
ACTIVE, EXPIRING_NEXT_MONTH and EXPIRING_THIS_MONTH bucket counts. -/
def current_recommend (g : RecommendGroups) : Nat :=
  g.active.length + g.expiring_next_month.length + g.expiring_this_month.length

/-- `expired_recommend` (common.py lines 278-281): the sum of the
CANCELED and the three expired-band bucket counts. -/
def expired_recommend (g : RecommendGroups) : Nat :=
  g.canceled.length + g.expired_less_than_1_month.length +
    g.expired_less_than_3_months.length + g.expired_over_3_months.length

theorem recommend_loop_cons_none (g : RecommendGroups) (r : RecommendRecord)
    (rest : List RecommendRecord) (hk : status_key r = none) :
    recommend_status_grouper_loop g (r :: rest) = recommend_status_grouper_loop g rest := by
  simp only [recommend_status_grouper_loop, hk]

theorem recommend_loop_cons_some (g : RecommendGroups) (r : RecommendRecord)
    (rest : List RecommendRecord) {s : String} (hk : status_key r = some s)
    (hs : s ∈ STATUSES) :
    recommend_status_grouper_loop g (r :: rest) =
      recommend_status_grouper_loop (addStatus g s r) rest := by
  simp only [recommend_status_grouper_loop, hk]
  rw [if_pos hs]

theorem recommend_status_grouper_loop_eq (rs : List RecommendRecord) :
    ∀ g : RecommendGroups,
      (∀ r ∈ rs, ∀ s, status_key r = some s → s ∈ STATUSES) →
      recommend_status_grouper_loop g rs = Except.ok
        ⟨g.active ++ rs.filter fun r => decide (status_key r = some ("ACTIVE")),
         g.canceled ++ rs.filter fun r => decide (status_key r = some ("CANCELED")),
         g.expired_less_than_1_month ++
           rs.filter fun r => decide (status_key r = some ("EXPIRED_LESS_THAN_1_MONTH")),
         g.expired_less_than_3_months ++
           rs.filter fun r => decide (status_key r = some ("EXPIRED_LESS_THAN_3_MONTHS")),
         g.expired_over_3_months ++
           rs.filter fun r => decide (status_key r = some ("EXPIRED_OVER_3_MONTHS")),
         g.expiring_next_month ++
           rs.filter fun r => decide (status_key r = some ("EXPIRING_NEXT_MONTH")),
         g.expiring_this_month ++
           rs.filter fun r => decide (status_key r = some ("EXPIRING_THIS_MONTH")),
         g.lost_or_stolen ++
           rs.filter fun r => decide (status_key r = some ("LOST_OR_STOLEN"))⟩ := by
  induction rs with
  | nil => intro g h; simp [recommend_status_grouper_loop]
  | cons r rest ih =>
    intro g h
    have hrest : ∀ r2 ∈ rest, ∀ s, status_key r2 = some s → s ∈ STATUSES :=
      fun r2 hr2 => h r2 (by simp [hr2])
    cases hk : status_key r with
    | none =>
      rw [recommend_loop_cons_none g r rest hk, ih g hrest]
      simp [List.filter_cons, hk]
    | some s =>
      have hs : s ∈ STATUSES := h r (by simp) s hk
      rw [recommend_loop_cons_some g r rest hk hs, ih (addStatus g s r) hrest]
      simp only [STATUSES, List.mem_cons, List.not_mem_nil, or_false] at hs
      rcases hs with hs | hs | hs | hs | hs | hs | hs | hs <;> subst hs <;>
        simp [addStatus, List.filter_cons, hk, List.append_assoc]

/-- C5 counterexample: a record whose status field holds an
unrecognized (non-empty) value makes `recommend_status_grouper` raise:
`groups[recommend_status]` (common.py line 169) indexes the fixed
eight-key dict directly, a `KeyError` for a key outside it — refuting
"such a record does not raise an error". -/
theorem recommend_status_grouper_raises_on_unrecognized :
    recommend_status_grouper [⟨1, some ("BOGUS"), none⟩] = Except.error Err.keyError := rfl

/-- C5 (amended): a record whose status field is missing, null or the
empty string (falsy) is silently dropped — it contributes to none of
the eight buckets and, as the two closing conjuncts show, to neither
derived aggregate — and when every present status is falsy or one of
the eight recognized strings the grouping returns the eight buckets
without raising.  A record with an unrecognized non-empty status
instead fails the whole call with `KeyError` (see the
counterexample). -/
theorem recommend_status_grouper_drops_falsy (rs : List RecommendRecord)
    (h : ∀ r ∈ rs, status_key r = none ∨ ∃ s ∈ STATUSES, status_key r = some s) :
    ∃ g, recommend_status_grouper rs = Except.ok g ∧
      g.active = (rs.filter fun r => decide (status_key r = some ("ACTIVE"))) ∧
      g.canceled = (rs.filter fun r => decide (status_key r = some ("CANCELED"))) ∧
      g.expired_less_than_1_month =
        (rs.filter fun r => decide (status_key r = some ("EXPIRED_LESS_THAN_1_MONTH"))) ∧
      g.expired_less_than_3_months =
        (rs.filter fun r => decide (status_key r = some ("EXPIRED_LESS_THAN_3_MONTHS"))) ∧
      g.expired_over_3_months =
        (rs.filter fun r => decide (status_key r = some ("EXPIRED_OVER_3_MONTHS"))) ∧
      g.expiring_next_month =
        (rs.filter fun r => decide (status_key r = some ("EXPIRING_NEXT_MONTH"))) ∧
      g.expiring_this_month =
        (rs.filter fun r => decide (status_key r = some ("EXPIRING_THIS_MONTH"))) ∧
      g.lost_or_stolen =
        (rs.filter fun r => decide (status_key r = some ("LOST_OR_STOLEN"))) ∧
      (∀ r ∈ rs, status_key r = none →
        r ∉ g.active ∧ r ∉ g.canceled ∧ r ∉ g.expired_less_than_1_month ∧
        r ∉ g.expired_less_than_3_months ∧ r ∉ g.expired_over_3_months ∧
        r ∉ g.expiring_next_month ∧ r ∉ g.expiring_this_month ∧ r ∉ g.lost_or_stolen) ∧
      current_recommend g =
        (rs.filter fun r => decide (status_key r = some ("ACTIVE"))).length +
        (rs.filter fun r => decide (status_key r = some ("EXPIRING_NEXT_MONTH"))).length +
        (rs.filter fun r => decide (status_key r = some ("EXPIRING_THIS_MONTH"))).length ∧
      expired_recommend g =
        (rs.filter fun r => decide (status_key r = some ("CANCELED"))).length +
        (rs.filter fun r => decide (status_key r = some ("EXPIRED_LESS_THAN_1_MONTH"))).length +
        (rs.filter fun r => decide (status_key r = some ("EXPIRED_LESS_THAN_3_MONTHS"))).length +
        (rs.filter fun r => decide (status_key r = some ("EXPIRED_OVER_3_MONTHS"))).length := by
  have h2 : ∀ r ∈ rs, ∀ s, status_key r = some s → s ∈ STATUSES := by
    intro r hr s hs
    rcases h r hr with hn | ⟨s2, hs2, heq⟩
    · rw [hn] at hs; exact absurd hs (by simp)
    · rw [heq] at hs
      obtain rfl := Option.some_inj.mp hs
      exact hs2
  have hloop := recommend_status_grouper_loop_eq rs emptyRecommendGroups h2
  refine ⟨⟨rs.filter fun r => decide (status_key r = some ("ACTIVE")),
    rs.filter fun r => decide (status_key r = some ("CANCELED")),
    rs.filter fun r => decide (status_key r = some ("EXPIRED_LESS_THAN_1_MONTH")),
    rs.filter fun r => decide (status_key r = some ("EXPIRED_LESS_THAN_3_MONTHS")),
    rs.filter fun r => decide (status_key r = some ("EXPIRED_OVER_3_MONTHS")),
    rs.filter fun r => decide (status_key r = some ("EXPIRING_NEXT_MONTH")),
    rs.filter fun r => decide (status_key r = some ("EXPIRING_THIS_MONTH")),
    rs.filter fun r => decide (status_key r = some ("LOST_OR_STOLEN"))⟩,
    by rw [recommend_status_grouper, hloop]; simp [emptyRecommendGroups],
    rfl, rfl, rfl, rfl, rfl, rfl, rfl, rfl, ?_, rfl, rfl⟩
  intro r hr hnone
  refine ⟨?_, ?_, ?_, ?_, ?_, ?_, ?_, ?_⟩ <;>
    · intro hmem
      have := (List.mem_filter.mp hmem).2
      rw [hnone] at this
      simp at this

/-- The C5 witness sample: one recognized status, one absent/null
status, one empty-string status. -/
def c5_sample : List RecommendRecord :=
  [⟨1, some ("ACTIVE"), none⟩, ⟨2, none, none⟩, ⟨3, some (""), none⟩]

/-- Closed witness for C5 (amended) at the concrete list `c5_sample`. -/
theorem recommend_status_grouper_drops_falsy_witness :
    ∃ g, recommend_status_grouper c5_sample = Except.ok g ∧
      g.active = (c5_sample.filter fun r => decide (status_key r = some ("ACTIVE"))) ∧
      g.canceled = (c5_sample.filter fun r => decide (status_key r = some ("CANCELED"))) ∧
      g.expired_less_than_1_month =
        (c5_sample.filter fun r => decide (status_key r = some ("EXPIRED_LESS_THAN_1_MONTH"))) ∧
      g.expired_less_than_3_months =
        (c5_sample.filter fun r => decide (status_key r = some ("EXPIRED_LESS_THAN_3_MONTHS"))) ∧
      g.expired_over_3_months =
        (c5_sample.filter fun r => decide (status_key r = some ("EXPIRED_OVER_3_MONTHS"))) ∧
      g.expiring_next_month =
        (c5_sample.filter fun r => decide (status_key r = some ("EXPIRING_NEXT_MONTH"))) ∧
      g.expiring_this_month =
        (c5_sample.filter fun r => decide (status_key r = some ("EXPIRING_THIS_MONTH"))) ∧
      g.lost_or_stolen =
        (c5_sample.filter fun r => decide (status_key r = some ("LOST_OR_STOLEN"))) ∧
      (∀ r ∈ c5_sample, status_key r = none →
        r ∉ g.active ∧ r ∉ g.canceled ∧ r ∉ g.expired_less_than_1_month ∧
        r ∉ g.expired_less_than_3_months ∧ r ∉ g.expired_over_3_months ∧
        r ∉ g.expiring_next_month ∧ r ∉ g.expiring_this_month ∧ r ∉ g.lost_or_stolen) ∧
      current_recommend g =
        (c5_sample.filter fun r => decide (status_key r = some ("ACTIVE"))).length +
        (c5_sample.filter fun r => decide (status_key r = some ("EXPIRING_NEXT_MONTH"))).length +
        (c5_sample.filter fun r => decide (status_key r = some ("EXPIRING_THIS_MONTH"))).length ∧
      expired_recommend g =
        (c5_sample.filter fun r => decide (status_key r = some ("CANCELED"))).length +
        (c5_sample.filter fun r =>
          decide (status_key r = some ("EXPIRED_LESS_THAN_1_MONTH"))).length +
        (c5_sample.filter fun r =>
          decide (status_key r = some ("EXPIRED_LESS_THAN_3_MONTHS"))).length +
        (c5_sample.filter fun r =>
          decide (status_key r = some ("EXPIRED_OVER_3_MONTHS"))).length :=
  recommend_status_grouper_drops_falsy c5_sample (by decide)

/-- The concrete recommend-status collection of the specification's
end-to-end scenario: 3 ACTIVE, 3 CANCELED, 6 + 4 + 2 in the expired
bands, 7 EXPIRING_NEXT_MONTH, 1 EXPIRING_THIS_MONTH, 3
LOST_OR_STOLEN. -/
def c8_sample : List RecommendRecord :=
  List.replicate 3 ⟨1, some ("ACTIVE"), none⟩ ++
  List.replicate 3 ⟨2, some ("CANCELED"), none⟩ ++
  List.replicate 6 ⟨3, some ("EXPIRED_LESS_THAN_1_MONTH"), none⟩ ++
  List.replicate 4 ⟨4, some ("EXPIRED_LESS_THAN_3_MONTHS"), none⟩ ++
  List.replicate 2 ⟨5, some ("EXPIRED_OVER_3_MONTHS"), none⟩ ++
  List.replicate 7 ⟨6, some ("EXPIRING_NEXT_MONTH"), none⟩ ++
  List.replicate 1 ⟨7, some ("EXPIRING_THIS_MONTH"), none⟩ ++
  List.replicate 3 ⟨8, some ("LOST_OR_STOLEN"), none⟩

/-- C8: the two derived report fields are exactly these sums of the
eight recommend bucket counts — `current_recommend` the ACTIVE and two
expiring buckets, `expired_recommend` the CANCELED and three expired
buckets (common.py lines 275-281) — and on the scenario collection
`c8_sample` the bucket counts are 3, 3, 6, 4, 2, 7, 1, 3 and the
derived fields are 11 and 15. -/
theorem recommend_derived_aggregates :
    (∀ g : RecommendGroups,
      current_recommend g = g.active.length + g.expiring_next_month.length +
        g.expiring_this_month.length ∧
      expired_recommend g = g.canceled.length + g.expired_less_than_1_month.length +
        g.expired_less_than_3_months.length + g.expired_over_3_months.length) ∧
    (recommend_status_grouper c8_sample).map (fun g => g.active.length) = Except.ok 3 ∧
    (recommend_status_grouper c8_sample).map (fun g => g.canceled.length) = Except.ok 3 ∧
    (recommend_status_grouper c8_sample).map (fun g => g.expired_less_than_1_month.length) =
      Except.ok 6 ∧
    (recommend_status_grouper c8_sample).map (fun g => g.expired_less_than_3_months.length) =
      Except.ok 4 ∧
    (recommend_status_grouper c8_sample).map (fun g => g.expired_over_3_months.length) =
      Except.ok 2 ∧
    (recommend_status_grouper c8_sample).map (fun g => g.expiring_next_month.length) =
      Except.ok 7 ∧
    (recommend_status_grouper c8_sample).map (fun g => g.expiring_this_month.length) =
      Except.ok 1 ∧
    (recommend_status_grouper c8_sample).map (fun g => g.lost_or_stolen.length) =
      Except.ok 3 ∧
    (recommend_status_grouper c8_sample).map current_recommend = Except.ok 11 ∧
    (recommend_status_grouper c8_sample).map expired_recommend = Except.ok 15 :=
  ⟨fun _ => ⟨rfl, rfl⟩, rfl, rfl, rfl, rfl, rfl, rfl, rfl, rfl, rfl, rfl⟩

/-- Embeds `percent_str` (common.py lines 191-193): the body divides
first — `(top / bottom) * 100`, Python float division, which raises
`ZeroDivisionError` whenever `bottom` is zero, with no guard anywhere
in the function — then formats with zero decimal places and a trailing
percent sign.  The non-failing branch's value is modelled as an exact
rational rounded to a whole percent (Python rounds the nearest double
half-to-even and inserts thousands separators; no verified claim
depends on that branch's digits, only on its totality). -/
def percent_str (top bottom : Int) : Except Err String :=
  if bottom = 0 then Except.error Err.zeroDivisionError
  else Except.ok (toString (round ((top : ℚ) / (bottom : ℚ) * 100)) ++ "%")

/-- C6 counterexample: `percent_str 5 0` raises `ZeroDivisionError`
instead of returning the string 0% — common.py line 192 performs the
division unguarded, so the claimed "explicitly guarded special case"
does not exist in the code. -/
theorem percent_str_zero_denominator_counterexample :
    percent_str 5 0 = Except.error Err.zeroDivisionError ∧
    percent_str 5 0 ≠ Except.ok ("0%") :=
  ⟨rfl, by simp [percent_str]⟩

/-- C6 (amended): the percentage formatter has no zero-denominator
guard: for every numerator `top`, `percent_str top 0` raises
`ZeroDivisionError` (while any non-zero denominator yields a formatted
string without raising). -/
theorem percent_str_zero_denominator_raises (top : Int) :
    percent_str top 0 = Except.error Err.zeroDivisionError ∧
    ∀ bottom : Int, bottom ≠ 0 → ∃ s, percent_str top bottom = Except.ok s := by
  refine ⟨rfl, fun bottom hb =>
    ⟨toString (round ((top : ℚ) / (bottom : ℚ) * 100)) ++ "%", ?_⟩⟩
  rw [percent_str, if_neg hb]

/-- A calling record as it sits in the nested callings collection.
The Python record is a dict that always carries the `memberId` key
(the flattening subscripts it directly), so a stored record is a
non-empty dict — hence truthy; `position` stands for the rest of the
record's payload. -/
structure Calling where
  memberId : Int
  position : String
deriving DecidableEq, Repr

/-- A sub-organization: `children['callings']`. -/
structure SubOrg where
  callings : List Calling
deriving DecidableEq, Repr

/-- An organization group: `group['children']`. -/
structure Org where
  children : List SubOrg
deriving DecidableEq, Repr

/-- The visit order of the triple loop of `callings_by_member_id`
(common.py lines 99-102): every group, then every child, then every
calling. -/
def flatten_callings (callings : List Org) : List Calling :=
  callings.flatMap fun g => g.children.flatMap fun c => c.callings

/-- One dict assignment `new_callings[calling['memberId']] = calling`:
the new binding shadows any earlier one for the same key. -/
def calling_update (d : Int → Option Calling) (cal : Calling) : Int → Option Calling :=
  fun k => if k = cal.memberId then some cal else d k

/-- Embeds `callings_by_member_id` (common.py lines 94-104): the nested
calling collection flattened into a lookup keyed by the legacy member
identifier, built by successive dict assignments (so an identifier that
recurs keeps its last-visited record). -/
def callings_by_member_id (callings : List Org) : Int → Option Calling :=
  (flatten_callings callings).foldl calling_update (fun _ => none)

/-- Embeds the closure of `calling_finder_maker` (common.py lines
107-120): look the member's `legacyCmisId` up with `dict.get`, whose
miss value is `None` — the normal "no calling" value, not an error. -/
def calling_finder_maker (callings : List Org) : Member → Option Calling :=
  fun member => callings_by_member_id callings member.legacyCmisId

/-- Embeds `calling_splitter` (common.py lines 123-130):
`partition(lambda i: calling_finder(i), members)`.  The lambda's
truthiness test is `isSome` here because the finder yields either
`None` (falsy) or a stored record, and every stored record is a
non-empty dict (it carries at least its `memberId` key), hence
truthy. -/
def calling_splitter (calling_finder : Member → Option Calling) (members : List Member) :
    List Member × List Member :=
  partition (fun m => (calling_finder m).isSome) members

theorem getLast?_cons_or {α : Type} (a : α) (l : List α) :
    (a :: l).getLast? = l.getLast?.or (some a) := by
  cases l with
  | nil => rfl
  | cons b t =>
    rw [List.getLast?_cons_cons]
    cases hl : (b :: t).getLast? with
    | some x => rfl
    | none => exact absurd (List.getLast?_eq_none_iff.mp hl) (by simp)

theorem foldl_calling_update (l : List Calling) :
    ∀ (d : Int → Option Calling) (k : Int),
      (l.foldl calling_update d) k =
        ((l.filter fun c => decide (c.memberId = k)).getLast?).or (d k) := by
  induction l with
  | nil => intro d k; simp
  | cons c t ih =>
    intro d k
    rw [List.foldl_cons, ih (calling_update d c) k, List.filter_cons]
    by_cases hc : c.memberId = k
    · subst hc
      rw [if_pos (by simp), getLast?_cons_or]
      cases hl : (t.filter fun c2 => decide (c2.memberId = c.memberId)).getLast? with
      | some c2 => rfl
      | none => simp [calling_update]
    · rw [if_neg (by simpa using hc)]
      cases hl : (t.filter fun c2 => decide (c2.memberId = k)).getLast? with
      | some c2 => rfl
      | none =>
        simp only [Option.none_or, calling_update]
        rw [if_neg fun hk => hc hk.symm]

/-- C7: the nested calling collection is flattened into a lookup keyed
by the legacy member identifier with last-write-wins on a recurring
identifier (the lookup returns the last record, in visit order, whose
`memberId` is the queried key); the calling split of any member
population is the binary partition by lookup success — a member is
"with calling" exactly when the lookup of their `legacyCmisId` returns
a (necessarily non-empty) record, absence being the normal no-calling
value rather than an error — and the two output sizes sum to the
population size. -/
theorem calling_split_by_lookup (callings : List Org) (members : List Member) :
    (∀ k : Int, callings_by_member_id callings k =
      ((flatten_callings callings).filter fun c => decide (c.memberId = k)).getLast?) ∧
    calling_splitter (calling_finder_maker callings) members =
      (members.filter fun m => (calling_finder_maker callings m).isSome,
       members.filter fun m => !(calling_finder_maker callings m).isSome) ∧
    (calling_splitter (calling_finder_maker callings) members).1.length +
      (calling_splitter (calling_finder_maker callings) members).2.length =
      members.length ∧
    (∀ m ∈ members,
      (m ∈ (calling_splitter (calling_finder_maker callings) members).1 ↔
        (callings_by_member_id callings m.legacyCmisId).isSome = true) ∧
      (m ∈ (calling_splitter (calling_finder_maker callings) members).2 ↔
        (callings_by_member_id callings m.legacyCmisId).isSome = false)) := by
  refine ⟨?_, rfl, ?_, ?_⟩
  · intro k
    rw [callings_by_member_id, foldl_calling_update]
    exact Option.or_none
  · have hperm :=
      (List.filter_append_perm (fun m => (calling_finder_maker callings m).isSome)
        members).length_eq
    simpa [calling_splitter, partition] using hperm
  · intro m hm
    constructor
    · simp [calling_splitter, partition, List.mem_filter, hm, calling_finder_maker]
    · simp [calling_splitter, partition, List.mem_filter, hm, calling_finder_maker]

/-- The age-cohort predicate list of `MemberReport.process_data`
(common.py lines 214-218), in its fixed order: primary, youth, adult.
Python's chained comparison `12 <= i['age'] <= 17` is the conjunction
of its two comparisons. -/
def age_cohort_predicates : List (Member → Bool) :=
  [fun i => decide (i.age < 12),
   fun i => decide (12 ≤ i.age ∧ i.age ≤ 17),
   fun i => decide (i.age > 17)]

theorem age_cohort_firstMatch (m : Member) :
    firstMatch age_cohort_predicates m =
      if m.age < 12 then some 0 else if m.age ≤ 17 then some 1 else some 2 := by
  by_cases h1 : m.age < 12
  · simp [age_cohort_predicates, firstMatch, h1]
  · by_cases h2 : m.age ≤ 17
    · have h12 : 12 ≤ m.age := by omega
      simp [age_cohort_predicates, firstMatch, h1, h2, h12]
    · have h17 : m.age > 17 := by omega
      simp [age_cohort_predicates, firstMatch, h1, h2, h17]

/-- C9: on any roster of records carrying an integer age, the
three-bucket age-cohort `multi_partition` — `age < 12`, then
`12 <= age <= 17`, then `age > 17`, in that fixed order — never raises
(the three boundaries cover every integer), the primary / youth /
adult buckets are exactly the corresponding filters of the roster (so
each record lands in exactly one cohort), and the three cohort counts
sum to the roster length. -/
theorem age_cohort_partition_total (members : List Member) :
    ∃ primary youth adults,
      multi_partition age_cohort_predicates members = Except.ok [primary, youth, adults] ∧
      primary = (members.filter fun m => decide (m.age < 12)) ∧
      youth = (members.filter fun m => decide (12 ≤ m.age ∧ m.age ≤ 17)) ∧
      adults = (members.filter fun m => decide (m.age > 17)) ∧
      primary.length + youth.length + adults.length = members.length := by
  have hall : ∀ m ∈ members, (firstMatch age_cohort_predicates m).isSome = true := by
    intro m _
    rw [age_cohort_firstMatch]
    split_ifs <;> simp
  obtain ⟨parts, hmp⟩ := multi_partition_ok_of_matched hall
  have hlen : parts.length = 3 := by
    simpa [age_cohort_predicates] using multi_partition_length hmp
  rcases parts with _ | ⟨a, _ | ⟨b, _ | ⟨c, _ | ⟨d, rest⟩⟩⟩⟩ <;> simp at hlen
  have h0 := multi_partition_get hmp 0 (by simp)
  have h1 := multi_partition_get hmp 1 (by simp)
  have h2 := multi_partition_get hmp 2 (by simp)
  simp only [List.get] at h0 h1 h2
  have e0 : (members.filter fun m => decide (firstMatch age_cohort_predicates m = some 0)) =
      members.filter fun m => decide (m.age < 12) := by
    apply List.filter_congr
    intro m _
    simp only [decide_eq_decide]
    rw [age_cohort_firstMatch]
    split_ifs <;> simp <;> omega
  have e1 : (members.filter fun m => decide (firstMatch age_cohort_predicates m = some 1)) =
      members.filter fun m => decide (12 ≤ m.age ∧ m.age ≤ 17) := by
    apply List.filter_congr
    intro m _
    simp only [decide_eq_decide]
    rw [age_cohort_firstMatch]
    split_ifs <;> simp <;> omega
  have e2 : (members.filter fun m => decide (firstMatch age_cohort_predicates m = some 2)) =
      members.filter fun m => decide (m.age > 17) := by
    apply List.filter_congr
    intro m _
    simp only [decide_eq_decide]
    rw [age_cohort_firstMatch]
    split_ifs <;> simp <;> omega
  have hsum := multi_partition_sum hmp
  simp only [List.map_cons, List.map_nil, List.sum_cons, List.sum_nil] at hsum
  refine ⟨a, b, c, hmp, by rw [h0, e0], by rw [h1, e1], by rw [h2, e2], ?_⟩
  rw [h0, e0, h1, e1, h2, e2] at hsum
  rw [h0, e0, h1, e1, h2, e2]
  omega

/-- The single-adult flag: `i['isSingleAdult'] or i['isYoungSingleAdult']`
(common.py line 80). -/
def single_pred (m : Member) : Bool := m.isSingleAdult || m.isYoungSingleAdult

/-- `single_splitter` (common.py line 80). -/
def single_splitter (members : List Member) : List Member × List Member :=
  partition single_pred members

/-- The predicate list of `_single_age_partition` (common.py lines
81-85): the three single-adult age bands and the trailing always-true
catch-all that makes the four-way partition exhaustive. -/
def single_age_predicates : List (Member → Bool) :=
  [fun i => decide (18 ≤ i.age ∧ i.age ≤ 30),
   fun i => decide (31 ≤ i.age ∧ i.age ≤ 45),
   fun i => decide (46 ≤ i.age),
   fun _ => true]

/-- Embeds `singles_by_age` (common.py lines 88-91): keep the singles,
partition them four ways, then unpack `single_18, single_31,
single_46, _`, returning the first three buckets and discarding the
catch-all.  (Python unpacking raises `ValueError` on a wrong-arity
tuple; `multi_partition` always yields one bucket per predicate, so
that arm is unreachable.) -/
def singles_by_age (members : List Member) :
    Except Err (List Member × List Member × List Member) :=
  match multi_partition single_age_predicates (single_splitter members).1 with
  | Except.error e => Except.error e
  | Except.ok [s18, s31, s46, _] => Except.ok (s18, s31, s46)
  | Except.ok _ => Except.error Err.valueErrorUnpack

theorem single_age_firstMatch (m : Member) :
    firstMatch single_age_predicates m =
      if 18 ≤ m.age ∧ m.age ≤ 30 then some 0
      else if 31 ≤ m.age ∧ m.age ≤ 45 then some 1
      else if 46 ≤ m.age then some 2 else some 3 := by
  by_cases h1 : 18 ≤ m.age ∧ m.age ≤ 30
  · simp [single_age_predicates, firstMatch, h1]
  · by_cases h2 : 31 ≤ m.age ∧ m.age ≤ 45
    · simp [single_age_predicates, firstMatch, h1, h2]
    · by_cases h3 : 46 ≤ m.age
      · simp [single_age_predicates, firstMatch, h1, h2, h3]
      · simp [single_age_predicates, firstMatch, h1, h2, h3]

/-- C10: `singles_by_age` never raises — the trailing always-true
catch-all keeps the four-way partition exhaustive — and returns only
the 18-30, 31-45 and 46-plus buckets (each exactly the corresponding
filter of the single-flagged members), silently discarding the fourth
catch-all bucket; hence a single-flagged member younger than 18, who
can only fall into the catch-all, appears in none of the three
returned lists. -/
theorem singles_by_age_discards_catch_all (members : List Member) (m : Member)
    (_hm : single_pred m = true) (hage : m.age < 18) :
    ∃ s18 s31 s46,
      singles_by_age members = Except.ok (s18, s31, s46) ∧
      s18 = ((single_splitter members).1.filter fun x => decide (18 ≤ x.age ∧ x.age ≤ 30)) ∧
      s31 = ((single_splitter members).1.filter fun x => decide (31 ≤ x.age ∧ x.age ≤ 45)) ∧
      s46 = ((single_splitter members).1.filter fun x => decide (46 ≤ x.age)) ∧
      (single_splitter members).1 = members.filter single_pred ∧
      m ∉ s18 ∧ m ∉ s31 ∧ m ∉ s46 := by
  have hall : ∀ x ∈ (single_splitter members).1,
      (firstMatch single_age_predicates x).isSome = true := by
    intro x _
    rw [single_age_firstMatch]
    split_ifs <;> simp
  obtain ⟨parts, hmp⟩ := multi_partition_ok_of_matched hall
  have hlen : parts.length = 4 := by
    simpa [single_age_predicates] using multi_partition_length hmp
  rcases parts with _ | ⟨a, _ | ⟨b, _ | ⟨c, _ | ⟨d, _ | ⟨e, rest⟩⟩⟩⟩⟩ <;> simp at hlen
  have h0 := multi_partition_get hmp 0 (by simp)
  have h1 := multi_partition_get hmp 1 (by simp)
  have h2 := multi_partition_get hmp 2 (by simp)
  simp only [List.get] at h0 h1 h2
  have e0 : ((single_splitter members).1.filter
        fun x => decide (firstMatch single_age_predicates x = some 0)) =
      (single_splitter members).1.filter fun x => decide (18 ≤ x.age ∧ x.age ≤ 30) := by
    apply List.filter_congr
    intro x _
    simp only [decide_eq_decide]
    rw [single_age_firstMatch]
    split_ifs <;> simp <;> omega
  have e1 : ((single_splitter members).1.filter
        fun x => decide (firstMatch single_age_predicates x = some 1)) =
      (single_splitter members).1.filter fun x => decide (31 ≤ x.age ∧ x.age ≤ 45) := by
    apply List.filter_congr
    intro x _
    simp only [decide_eq_decide]
    rw [single_age_firstMatch]
    split_ifs <;> simp <;> omega
  have e2 : ((single_splitter members).1.filter
        fun x => decide (firstMatch single_age_predicates x = some 2)) =
      (single_splitter members).1.filter fun x => decide (46 ≤ x.age) := by
    apply List.filter_congr
    intro x _
    simp only [decide_eq_decide]
    rw [single_age_firstMatch]
    split_ifs <;> simp <;> omega
  refine ⟨a, b, c, ?_, by rw [h0, e0], by rw [h1, e1], by rw [h2, e2], rfl, ?_, ?_, ?_⟩
  · rw [singles_by_age, hmp]
  · rw [h0, e0]
    intro hmem
    have := (List.mem_filter.mp hmem).2
    simp at this
    omega
  · rw [h1, e1]
    intro hmem
    have := (List.mem_filter.mp hmem).2
    simp at this
    omega
  · rw [h2, e2]
    intro hmem
    have := (List.mem_filter.mp hmem).2
    simp at this
    omega

/-- The C10 witness sample: one seventeen-year-old single-flagged
member. -/
def c10_minor : Member := ⟨1, 17, true, false, none⟩

def c10_sample : List Member := [c10_minor]

/-- Closed witness for C10 at the concrete roster `c10_sample`. -/
theorem singles_by_age_discards_catch_all_witness :
    ∃ s18 s31 s46,
      singles_by_age c10_sample = Except.ok (s18, s31, s46) ∧
      s18 = ((single_splitter c10_sample).1.filter
        fun x => decide (18 ≤ x.age ∧ x.age ≤ 30)) ∧
      s31 = ((single_splitter c10_sample).1.filter
        fun x => decide (31 ≤ x.age ∧ x.age ≤ 45)) ∧
      s46 = ((single_splitter c10_sample).1.filter fun x => decide (46 ≤ x.age)) ∧
      (single_splitter c10_sample).1 = c10_sample.filter single_pred ∧
      c10_minor ∉ s18 ∧ c10_minor ∉ s31 ∧ c10_minor ∉ s46 :=
  singles_by_age_discards_catch_all c10_sample c10_minor (by decide) (by decide)

end WardReport
